import Mathlib

/-!
A verification development for the middleware pipeline of `@loopback/rest`
(`invoke-middleware.provider.ts` and its companion modules): the legacy
Express-handler adapter `toInterceptor`, the option resolution of
`InvokeMiddlewareProvider.value`, the group-based ordering of middleware
chains, middleware registration (`asMiddleware`, `registerMiddleware`),
and provider-class naming (`buildName`, `defineInterceptorProvider`).

Asynchronous behaviour is embedded as traces of settlement events processed
by an explicit state machine: each event settles at most one of the two
promises raced by the adapter, and the continuation after `Promise.race`
runs atomically when the race first settles.
-/

namespace LoopbackMiddleware

/-! ## Legacy handler adapter (`toInterceptor`)

The adapter races two promises:
`handling` (settled by the wrapped handler invoking its callback: resolve on
`err == null` after setting `toProceed`, reject otherwise) and `finishing`
(settled by the close event of the request context). After the race, the
adapter calls `next()` when `toProceed` is set, else returns the response.
-/

/-- A settlement event observable by the adapter: the handler invokes its
callback with no error (`cbOk`), with an error (`cbErr`), or the response
close event fires (`close`). Errors are indexed by `Nat`. -/
inductive Event where
  | cbOk : Event
  | cbErr : Nat → Event
  | close : Event
deriving DecidableEq

/-- The state of the `handling` promise created around the handler callback. -/
inductive HandlingState where
  | unsettled : HandlingState
  | resolved : HandlingState
  | rejected : Nat → HandlingState
deriving DecidableEq

/-- The latched outcome of `await Promise.race([handling, finishing])`
together with the branch taken on line 273 (`if (toProceed)`). -/
inductive RaceDecision where
  | proceed : RaceDecision
  | closeReturn : RaceDecision
  | errored : Nat → RaceDecision
deriving DecidableEq

/-- Per-invocation state of the adapter closure: the two raced promises,
the `toProceed` flag, and the decision latched when the race first settles. -/
structure AdapterState where
  handling : HandlingState
  finished : Bool
  toProceed : Bool
  decided : Option RaceDecision
deriving DecidableEq

/-- Initial adapter state: both promises unsettled, `toProceed = false`. -/
def initAdapterState : AdapterState :=
  { handling := .unsettled, finished := false, toProceed := false,
    decided := none }

/-- The continuation after a successful settlement of the race: latch the
decision once, reading `toProceed` as the code does after the `await`. -/
def settleOk (s : AdapterState) : AdapterState :=
  match s.decided with
  | none => { s with decided := some (if s.toProceed then .proceed else .closeReturn) }
  | some _ => s

/-- The continuation after the race rejects: latch the error once. -/
def settleErr (s : AdapterState) (e : Nat) : AdapterState :=
  match s.decided with
  | none => { s with decided := some (.errored e) }
  | some _ => s

/-- One settlement event processed by the adapter. A promise settles only on
its first settlement; the `toProceed := true` assignment in the callback runs
on every `err == null` invocation, as in the source. -/
def adapterStep (s : AdapterState) : Event → AdapterState
  | .cbOk =>
    match s.handling with
    | .unsettled => settleOk { s with handling := .resolved, toProceed := true }
    | _ => { s with toProceed := true }
  | .cbErr e =>
    match s.handling with
    | .unsettled => settleErr { s with handling := .rejected e } e
    | _ => s
  | .close =>
    if s.finished then s else settleOk { s with finished := true }

/-- Process a whole trace of settlement events from the initial state. -/
def adapterRun (events : List Event) : AdapterState :=
  events.foldl adapterStep initAdapterState

/-- The adapter's result: still pending (neither signal fired), a fulfilled
value, or a rejection. -/
inductive AdapterOutcome (α : Type) where
  | pending : AdapterOutcome α
  | ok : α → AdapterOutcome α
  | error : Nat → AdapterOutcome α
deriving DecidableEq

/-- Observable behaviour of one adapter invocation: the settled result, how
many times `next()` was invoked, and how many errors were propagated. -/
structure AdapterResult (α : Type) where
  outcome : AdapterOutcome α
  nextCalls : Nat
  errorsPropagated : Nat
deriving DecidableEq

/-- Map the latched decision to the adapter's observable behaviour:
`proceed` invokes `next()` once and returns its value, `closeReturn` returns
the request context's response, `errored` propagates the rejection. -/
def finishAdapter (nextResult response : α) (s : AdapterState) : AdapterResult α :=
  match s.decided with
  | none => { outcome := .pending, nextCalls := 0, errorsPropagated := 0 }
  | some .proceed => { outcome := .ok nextResult, nextCalls := 1, errorsPropagated := 0 }
  | some .closeReturn => { outcome := .ok response, nextCalls := 0, errorsPropagated := 0 }
  | some (.errored e) => { outcome := .error e, nextCalls := 0, errorsPropagated := 1 }

/-- The interceptor produced by `toInterceptor`, as a function of the trace
of settlement events: `nextResult` is the value `next()` would produce and
`response` is `requestCtx.response`. -/
def toInterceptor (nextResult response : α) (events : List Event) : AdapterResult α :=
  finishAdapter nextResult response (adapterRun events)

/-- True for the two callback-settlement events, false for `close`. -/
def Event.isCallback : Event → Bool
  | .cbOk => true
  | .cbErr _ => true
  | .close => false

/-! ## `InvokeMiddlewareProvider.value`: option resolution -/

/-- Default extension point name for middleware
(`MIDDLEWARE_EXTENSION_POINT` in `middleware.ts`). -/
def MIDDLEWARE_EXTENSION_POINT : String := "middleware.defaultChain"

/-- Options for `InvokeMiddleware`; both fields are optional in the source. -/
structure InvokeMiddlewareOptions where
  extensionPoint : Option String
  orderedGroups : Option (List String)
deriving DecidableEq

namespace InvokeMiddlewareProvider

/-- The `@config()` default of `InvokeMiddlewareProvider.defaultOptions`:
the default extension point and the ordering preference
`['cors', 'apiSpec', '']`. -/
def defaultOptions : InvokeMiddlewareOptions :=
  { extensionPoint := some MIDDLEWARE_EXTENSION_POINT,
    orderedGroups := some ["cors", "apiSpec", ""] }

/-- The option resolution performed by the closure returned from
`InvokeMiddlewareProvider.value()`: the extension point falls back, via
nullish coalescing, to the binding's `extensionPoint` tag and then to the
configured default; the ordered groups fall back to the configured default.
`bindingTag` is `this.binding?.tagMap[CoreTags.EXTENSION_POINT]` and
`defaults` is the configured `defaultOptions`. -/
def value (defaults : InvokeMiddlewareOptions) (bindingTag : Option String)
    (options : Option InvokeMiddlewareOptions) : InvokeMiddlewareOptions :=
  let extensionPointName := options.bind (fun o => o.extensionPoint)
  let orderedGroups := options.bind (fun o => o.orderedGroups)
  { extensionPoint :=
      (extensionPointName.orElse fun _ => bindingTag).orElse
        fun _ => defaults.extensionPoint,
    orderedGroups := orderedGroups.orElse fun _ => defaults.orderedGroups }

end InvokeMiddlewareProvider

/-! ## Group order resolution and chain execution

`invokeMiddleware` builds a `MiddlewareChain` over the bindings discovered
for the extension point, sorted by `compareBindingsByTag('group',
orderedGroups)`. The comparator and the chain engine live in
`@loopback/context` / `@loopback/core`; they are modelled here from the
specification of the Group Order Resolver and the Interceptor Chain.
-/

/-- An interceptor entry discovered from the registry: a stable identity and
the `group` tag used for ordering. -/
structure MiddlewareEntry where
  identity : String
  group : String
deriving DecidableEq

/-- Modelled from the spec: the ordering rank assigned by the Group Order
Resolver (the `compareBindingsByTag` comparator is not under `src`). A group
listed in the preference ranks at its index; an unlisted group ranks at the
position of the empty-string catch-all marker when the preference contains
one, and after every listed group otherwise. -/
def groupRank (preference : List String) (g : String) : Nat :=
  match preference.indexOf? g with
  | some i => i
  | none =>
    match preference.indexOf? "" with
    | some j => j
    | none => preference.length

/-- Modelled from the spec: the Group Order Resolver. Entries are placed by
ascending `groupRank`; ties keep the original discovery order (stable). -/
def resolveOrder (preference : List String) (entries : List MiddlewareEntry) :
    List MiddlewareEntry :=
  (List.range (preference.length + 1)).flatMap
    fun r => entries.filter fun e => groupRank preference e.group == r

/-- Modelled from the spec: the state of one chain execution alongside the
live registry. The chain holds the snapshot resolved at discovery time
(`queue`) and its trace of executed entries; the registry may change
independently. -/
structure ChainState where
  registry : List MiddlewareEntry
  queue : List MiddlewareEntry
  executed : List String
deriving DecidableEq

/-- An action interleaved with a chain execution: the chain runs its next
entry, or the registry gains or loses an entry. -/
inductive ChainAct where
  | step : ChainAct
  | register : MiddlewareEntry → ChainAct
  | deregister : String → ChainAct
deriving DecidableEq

/-- Modelled from the spec: start a chain execution by snapshotting the
registry through the Group Order Resolver at discovery time. -/
def startChain (reg : List MiddlewareEntry) (preference : List String) :
    ChainState :=
  { registry := reg, queue := resolveOrder preference reg, executed := [] }

/-- Modelled from the spec: one interleaved action. A chain step executes
the next snapshot entry; registration and deregistration touch only the
live registry. -/
def chainAct (s : ChainState) : ChainAct → ChainState
  | .step =>
    match s.queue with
    | [] => s
    | e :: rest =>
      { s with queue := rest, executed := s.executed ++ [e.identity] }
  | .register e => { s with registry := s.registry ++ [e] }
  | .deregister id =>
    { s with registry := s.registry.filter fun e => e.identity ≠ id }

/-- Run a sequence of interleaved actions over a chain state. -/
def runActs (s : ChainState) (acts : List ChainAct) : ChainState :=
  acts.foldl chainAct s

/-- Count the chain-step actions in an interleaving. -/
def countSteps (acts : List ChainAct) : Nat :=
  acts.countP fun a => a == ChainAct.step

/-! ## Middleware registration (`asMiddleware`, `registerMiddleware`) -/

/-- JavaScript truthiness of an optional string: `undefined` and the empty
string are falsy. -/
def jsTruthy : Option String → Bool
  | none => false
  | some s => !(s == "")

/-- Options to bind middleware (`MiddlewareBindingOptions`): only the fields
the registration path reads. -/
structure MiddlewareBindingOptions where
  key : Option String
  group : Option String
  extensionPointName : Option String
deriving DecidableEq

/-- A context binding as the registration path observes it: its key, the
extension points it is tagged for, and its `group` tag. -/
structure Binding where
  key : String
  extensionPoints : List String
  groupTag : Option String
deriving DecidableEq

/-- The binding template returned by `asMiddleware`: apply
`extensionFor(options.extensionPointName ?? MIDDLEWARE_EXTENSION_POINT)` and
tag the binding with `group: options.group ?? ''`. -/
def asMiddleware (options : MiddlewareBindingOptions) (binding : Binding) :
    Binding :=
  { binding with
    extensionPoints :=
      binding.extensionPoints ++
        [options.extensionPointName.getD MIDDLEWARE_EXTENSION_POINT],
    groupTag := some (options.group.getD "") }

/-- Middleware artifact passed to `registerMiddleware`: a middleware
function or a provider class, identified by name. -/
inductive MiddlewareArtifact where
  | middlewareFn : String → MiddlewareArtifact
  | providerClass : String → MiddlewareArtifact
deriving DecidableEq

/-- Source `createMiddlewareBinding`: build a binding from the provider class under
the `middleware` namespace (or `options.key`) and apply `asMiddleware` with
the extension point name defaulted. -/
def createMiddlewareBinding (className : String)
    (options : MiddlewareBindingOptions) : Binding :=
  let options :=
    { options with
      extensionPointName :=
        some (options.extensionPointName.getD MIDDLEWARE_EXTENSION_POINT) }
  asMiddleware options
    { key := options.key.getD ("middleware." ++ className),
      extensionPoints := [], groupTag := none }

/-- Source `registerMiddleware`: a provider class goes through
`createMiddlewareBinding`; a middleware function requires `options.key`
(asserted truthy) and is bound at that key with the `asMiddleware` template
applied. -/
def registerMiddleware (middleware : MiddlewareArtifact)
    (options : MiddlewareBindingOptions) : Except String Binding :=
  match middleware with
  | .providerClass c => .ok (createMiddlewareBinding c options)
  | .middlewareFn _ =>
    if jsTruthy options.key then
      .ok (asMiddleware options
        { key := options.key.getD "", extensionPoints := [], groupTag := none })
    else
      .error "options.key is missing."

/-! ## Provider naming (`buildName`, `defineInterceptorProvider`) -/

/-- A JavaScript word character (`\w`): ASCII letter, digit or underscore. -/
def isWordChar (c : Char) : Bool :=
  c.isAlphanum || c == '_'

/-- The effect of `name.replace(/[^\w]/g, '_')`: every non-word character becomes an
underscore. -/
def replaceNonWord (s : String) : String :=
  String.mk (s.data.map fun c => if isWordChar c then c else '_')

/-- Source `buildName(middlewareFactory, providedName, suffix)`: keep a truthy
provided name; otherwise derive one from the factory function's name with
non-word characters replaced, appending the suffix, and fall back to the
provided name (possibly `undefined`) when the derived name is empty. -/
def buildName (factoryName : String) (providedName : Option String)
    (suffix : Option String) : Option String :=
  if jsTruthy providedName then providedName
  else
    let name := replaceNonWord factoryName
    if name ≠ "" then some (name ++ suffix.getD "") else providedName

/-- Source `defineInterceptorProvider(middlewareFactory, className)`: resolve the
class name via `buildName`, assert it truthy, and return the generated
provider class (represented by its name). -/
def defineInterceptorProvider (factoryName : String)
    (className : Option String) : Except String String :=
  let cn := buildName factoryName className none
  if jsTruthy cn then .ok (cn.getD "")
  else .error "className is missing and it cannot be inferred."

/-- Invariant of an adapter that has observed no callback settlement: the
handler promise is unsettled, `toProceed` is unset, and any latched decision
came from a close event. -/
def NoCallbackInv (s : AdapterState) : Prop :=
  s.handling = .unsettled ∧ s.toProceed = false ∧
    (s.decided = none ∨ s.decided = some .closeReturn) ∧
    (s.finished = true → s.decided = some .closeReturn)

/-- Invariant of an adapter that has observed only `cbOk` settlements:
either nothing has settled yet, or the latched decision is `proceed`. -/
def ProceedInv (s : AdapterState) : Prop :=
  (s.decided = none ∧ s.toProceed = false ∧ s.handling = .unsettled) ∨
    s.decided = some .proceed

/-! ## Lemmas about the adapter race -/

theorem adapterStep_latch (s : AdapterState) (e : Event) (d : RaceDecision)
    (h : s.decided = some d) : (adapterStep s e).decided = some d := by
  cases e with
  | cbOk => cases hh : s.handling <;> simp [adapterStep, hh, settleOk, h]
  | cbErr n => cases hh : s.handling <;> simp [adapterStep, hh, settleErr, h]
  | close => by_cases hf : s.finished <;> simp [adapterStep, hf, settleOk, h]

theorem adapterFold_latch (es : List Event) : ∀ (s : AdapterState)
    (d : RaceDecision), s.decided = some d →
    (es.foldl adapterStep s).decided = some d := by
  induction es with
  | nil => intro s d h; simpa using h
  | cons e es ih =>
    intro s d h
    rw [List.foldl_cons]
    exact ih _ d (adapterStep_latch s e d h)

theorem noCallbackInv_init : NoCallbackInv initAdapterState := by
  simp [NoCallbackInv, initAdapterState]

theorem noCallbackInv_close (s : AdapterState) (h : NoCallbackInv s) :
    NoCallbackInv (adapterStep s .close) ∧
      (adapterStep s .close).decided = some .closeReturn := by
  obtain ⟨h1, h2, h3, h4⟩ := h
  by_cases hf : s.finished
  · have hd := h4 hf
    simp [adapterStep, hf, NoCallbackInv, h1, h2, hd]
  · rcases h3 with h3 | h3 <;>
      simp [adapterStep, hf, settleOk, h3, NoCallbackInv, h1, h2]

theorem eq_close_of_not_callback (e : Event) (h : e.isCallback = false) :
    e = Event.close := by
  cases e <;> simp [Event.isCallback] at h ⊢

theorem noCallbackInv_run (es : List Event) : ∀ s : AdapterState,
    (∀ x ∈ es, x.isCallback = false) → NoCallbackInv s →
    NoCallbackInv (es.foldl adapterStep s) := by
  induction es with
  | nil => intro s _ h; simpa using h
  | cons e es ih =>
    intro s hes h
    have he : e = Event.close := eq_close_of_not_callback e (hes e (by simp))
    subst he
    rw [List.foldl_cons]
    exact ih _ (fun x hx => hes x (by simp [hx])) (noCallbackInv_close s h).1

theorem adapterRun_closeFirst (es₁ es₂ : List Event)
    (h : ∀ x ∈ es₁, x.isCallback = false) :
    (adapterRun (es₁ ++ Event.close :: es₂)).decided = some .closeReturn := by
  unfold adapterRun
  rw [List.foldl_append, List.foldl_cons]
  have hinv := noCallbackInv_run es₁ initAdapterState h noCallbackInv_init
  exact adapterFold_latch es₂ _ _ (noCallbackInv_close _ hinv).2

theorem proceedInv_init : ProceedInv initAdapterState := by
  simp [ProceedInv, initAdapterState]

theorem proceedInv_cbOk (s : AdapterState) (h : ProceedInv s) :
    (adapterStep s .cbOk).decided = some .proceed := by
  rcases h with ⟨h1, h2, h3⟩ | h
  · simp [adapterStep, h3, settleOk, h1]
  · exact adapterStep_latch s .cbOk _ h

theorem proceedInv_run (es : List Event) : ∀ s : AdapterState,
    (∀ x ∈ es, x = Event.cbOk) → ProceedInv s →
    ProceedInv (es.foldl adapterStep s) := by
  induction es with
  | nil => intro s _ h; simpa using h
  | cons e es ih =>
    intro s hes h
    have he : e = Event.cbOk := hes e (by simp)
    subst he
    rw [List.foldl_cons]
    exact ih _ (fun x hx => hes x (by simp [hx])) (Or.inr (proceedInv_cbOk s h))

theorem adapterRun_proceedFirst (es₁ es₂ : List Event)
    (h : ∀ x ∈ es₁, x = Event.cbOk) :
    (adapterRun (es₁ ++ Event.cbOk :: es₂)).decided = some .proceed := by
  unfold adapterRun
  rw [List.foldl_append, List.foldl_cons]
  have hinv := proceedInv_run es₁ initAdapterState h proceedInv_init
  exact adapterFold_latch es₂ _ _ (proceedInv_cbOk _ hinv)

theorem adapterRun_first_decides (e : Event) (es : List Event) :
    (adapterRun (e :: es)).decided = (adapterStep initAdapterState e).decided := by
  unfold adapterRun
  rw [List.foldl_cons]
  have hd : ∃ d, (adapterStep initAdapterState e).decided = some d := by
    cases e <;> exact ⟨_, rfl⟩
  obtain ⟨d, hd⟩ := hd
  rw [hd]
  exact adapterFold_latch es _ d hd

theorem finishAdapter_congr (nextResult response : α) (s t : AdapterState)
    (h : s.decided = t.decided) :
    finishAdapter nextResult response s = finishAdapter nextResult response t := by
  unfold finishAdapter
  rw [h]

theorem toInterceptor_nextCalls_le_one (nextResult response : α)
    (es : List Event) : (toInterceptor nextResult response es).nextCalls ≤ 1 := by
  unfold toInterceptor finishAdapter
  split <;> simp

theorem toInterceptor_errors_le_one (nextResult response : α)
    (es : List Event) :
    (toInterceptor nextResult response es).errorsPropagated ≤ 1 := by
  unfold toInterceptor finishAdapter
  split <;> simp

/-! ## Claims about the legacy handler adapter -/

/-- C1: when the wrapped handler invokes its callback with no error before
the close event fires (and before any error signal), the adapter invokes
`next()` exactly once and returns the value produced by `next()`. -/
theorem toInterceptor_proceed_path (nextResult response : α)
    (es₁ es₂ : List Event) (h : ∀ x ∈ es₁, x = Event.cbOk) :
    toInterceptor nextResult response (es₁ ++ Event.cbOk :: es₂) =
      { outcome := .ok nextResult, nextCalls := 1, errorsPropagated := 0 } := by
  have hd := adapterRun_proceedFirst es₁ es₂ h
  unfold toInterceptor
  simp [finishAdapter, hd]

/-- C1 witness: a handler that signals `err == null` and whose response
closes afterwards proceeds downstream exactly once. -/
theorem toInterceptor_proceed_path_witness :
    toInterceptor 1 0 ([Event.cbOk] ++ Event.cbOk :: [Event.close]) =
      { outcome := .ok 1, nextCalls := 1, errorsPropagated := 0 } :=
  toInterceptor_proceed_path 1 0 [Event.cbOk] [Event.close] (by decide)

/-- C2: when the close event fires and the handler's callback is never
invoked, the adapter returns the response without ever invoking `next()`. -/
theorem toInterceptor_close_no_callback (nextResult response : α)
    (es : List Event) (hclose : Event.close ∈ es)
    (hnc : ∀ x ∈ es, x.isCallback = false) :
    toInterceptor nextResult response es =
      { outcome := .ok response, nextCalls := 0, errorsPropagated := 0 } := by
  obtain ⟨es₁, es₂, rfl⟩ := List.append_of_mem hclose
  have hd := adapterRun_closeFirst es₁ es₂ fun x hx => hnc x (by simp [hx])
  unfold toInterceptor
  simp [finishAdapter, hd]

/-- C2 witness: a trace holding only close events never proceeds. -/
theorem toInterceptor_close_no_callback_witness :
    toInterceptor 1 0 [Event.close, Event.close] =
      { outcome := .ok 0, nextCalls := 0, errorsPropagated := 0 } :=
  toInterceptor_close_no_callback 1 0 [Event.close, Event.close]
    (by decide) (by decide)

/-- C3: when the handler invokes its callback with a non-null error before
any other signal settles, the adapter rejects with that error and `next()`
is never invoked. -/
theorem toInterceptor_error_path (nextResult response : α) (e : Nat)
    (es : List Event) :
    toInterceptor nextResult response (Event.cbErr e :: es) =
      { outcome := .error e, nextCalls := 0, errorsPropagated := 1 } := by
  have hd : (adapterRun (Event.cbErr e :: es)).decided = some (.errored e) := by
    rw [adapterRun_first_decides]
    rfl
  unfold toInterceptor
  simp [finishAdapter, hd]

/-- C4: the latch — when the close signal settles before any callback
signal, `next()` is never invoked; the adapter's behaviour is a function of
the first settlement alone; and no interleaving invokes `next()` more than
once or propagates more than one error. -/
theorem toInterceptor_latch (nextResult response : α)
    (es₁ es₂ es es' : List Event) (e : Event)
    (h : ∀ x ∈ es₁, x.isCallback = false) :
    (toInterceptor nextResult response (es₁ ++ Event.close :: es₂)).nextCalls = 0 ∧
    toInterceptor nextResult response (e :: es) =
      finishAdapter nextResult response (adapterStep initAdapterState e) ∧
    (toInterceptor nextResult response es').nextCalls ≤ 1 ∧
    (toInterceptor nextResult response es').errorsPropagated ≤ 1 := by
  refine ⟨?_, finishAdapter_congr nextResult response _ _
      (adapterRun_first_decides e es),
    toInterceptor_nextCalls_le_one nextResult response es',
    toInterceptor_errors_le_one nextResult response es'⟩
  have hd := adapterRun_closeFirst es₁ es₂ h
  unfold toInterceptor
  simp [finishAdapter, hd]

/-- C4 witness: with a close before the callback, and a callback after it,
`next()` is not invoked; behaviour of an error-first trace is fixed by its
first event; call and error counts stay at most one. -/
theorem toInterceptor_latch_witness :
    (toInterceptor 1 0 ([Event.close] ++ Event.close :: [Event.cbOk])).nextCalls = 0 ∧
    toInterceptor 1 0 (Event.cbErr 3 :: [Event.close]) =
      finishAdapter 1 0 (adapterStep initAdapterState (Event.cbErr 3)) ∧
    (toInterceptor 1 0 [Event.cbOk, Event.cbErr 7]).nextCalls ≤ 1 ∧
    (toInterceptor 1 0 [Event.cbOk, Event.cbErr 7]).errorsPropagated ≤ 1 :=
  toInterceptor_latch 1 0 [Event.close] [Event.cbOk] [Event.close]
    [Event.cbOk, Event.cbErr 7] (Event.cbErr 3) (by decide)

/-- C8: whenever the close signal settles first — even if the callback
fires later — the adapter's fulfilled value is the request context's
response object. -/
theorem toInterceptor_close_returns_response (nextResult response : α)
    (es₁ es₂ : List Event) (h : ∀ x ∈ es₁, x.isCallback = false) :
    (toInterceptor nextResult response (es₁ ++ Event.close :: es₂)).outcome =
      .ok response := by
  have hd := adapterRun_closeFirst es₁ es₂ h
  unfold toInterceptor
  simp [finishAdapter, hd]

/-- C8 witness: close settles first, the callback fires afterwards, and the
adapter still returns the response value. -/
theorem toInterceptor_close_returns_response_witness :
    (toInterceptor 1 0 ([] ++ Event.close :: [Event.cbOk])).outcome =
      AdapterOutcome.ok 0 :=
  toInterceptor_close_returns_response 1 0 [] [Event.cbOk] (by decide)

/-! ## Claims about option resolution, ordering and registration -/

/-- C5: under the configured defaults, an invocation omitting
`orderedGroups` resolves to the default preference `['cors', 'apiSpec',
'']`, and an invocation omitting `extensionPoint` falls back first to the
binding's `extensionPoint` tag and then to `'middleware.defaultChain'`. -/
theorem InvokeMiddlewareProvider.value_defaults
    (bindingTag bindingTag' : Option String)
    (options options' : Option InvokeMiddlewareOptions)
    (hog : options.bind (fun o => o.orderedGroups) = none)
    (hep : options'.bind (fun o => o.extensionPoint) = none) :
    (InvokeMiddlewareProvider.value InvokeMiddlewareProvider.defaultOptions
        bindingTag options).orderedGroups = some ["cors", "apiSpec", ""] ∧
    (InvokeMiddlewareProvider.value InvokeMiddlewareProvider.defaultOptions
        bindingTag' options').extensionPoint =
      some (bindingTag'.getD MIDDLEWARE_EXTENSION_POINT) := by
  constructor
  · simp [InvokeMiddlewareProvider.value, InvokeMiddlewareProvider.defaultOptions,
      hog, Option.orElse]
  · cases bindingTag' <;>
      simp [InvokeMiddlewareProvider.value,
        InvokeMiddlewareProvider.defaultOptions, hep, Option.orElse]

/-- C5 witness: options that set only the extension point still get the
default groups, and options that set only the groups still fall back to the
binding tag for the extension point. -/
theorem InvokeMiddlewareProvider.value_defaults_witness :
    (InvokeMiddlewareProvider.value InvokeMiddlewareProvider.defaultOptions
        none (some { extensionPoint := some "custom", orderedGroups := none })).orderedGroups =
      some ["cors", "apiSpec", ""] ∧
    (InvokeMiddlewareProvider.value InvokeMiddlewareProvider.defaultOptions
        (some "tagged")
        (some { extensionPoint := none, orderedGroups := some ["log"] })).extensionPoint =
      some ((some "tagged").getD MIDDLEWARE_EXTENSION_POINT) :=
  InvokeMiddlewareProvider.value_defaults none (some "tagged")
    (some { extensionPoint := some "custom", orderedGroups := none })
    (some { extensionPoint := none, orderedGroups := some ["log"] }) rfl rfl

/-- C6: entries A (group `cors`), B (group empty), C (group `apiSpec`)
registered in order B, C, A resolve under preference
`['cors', 'apiSpec', '']` to the order A, C, B, and the chain executes them
in that order. -/
theorem resolveOrder_cors_apiSpec_example :
    resolveOrder ["cors", "apiSpec", ""]
        [{ identity := "B", group := "" }, { identity := "C", group := "apiSpec" },
          { identity := "A", group := "cors" }] =
      [{ identity := "A", group := "cors" }, { identity := "C", group := "apiSpec" },
        { identity := "B", group := "" }] ∧
    (runActs (startChain
        [{ identity := "B", group := "" }, { identity := "C", group := "apiSpec" },
          { identity := "A", group := "cors" }] ["cors", "apiSpec", ""])
        [ChainAct.step, ChainAct.step, ChainAct.step]).executed =
      ["A", "C", "B"] := by
  decide

theorem runActs_executed (acts : List ChainAct) : ∀ s : ChainState,
    (runActs s acts).executed =
      s.executed ++ ((s.queue.map fun e => e.identity).take (countSteps acts)) := by
  induction acts with
  | nil => intro s; simp [runActs, countSteps]
  | cons a acts ih =>
    intro s
    have hstep : runActs s (a :: acts) = runActs (chainAct s a) acts := by
      simp [runActs]
    rw [hstep]
    cases a with
    | step =>
      cases hq : s.queue with
      | nil =>
        rw [ih]
        simp [chainAct, hq, countSteps, List.countP_cons]
      | cons e rest =>
        rw [ih]
        simp [chainAct, hq, countSteps, List.countP_cons, List.append_assoc]
    | register e =>
      rw [ih]
      simp [chainAct, countSteps, List.countP_cons]
    | deregister id =>
      rw [ih]
      simp [chainAct, countSteps, List.countP_cons]

/-- C7: a chain execution runs exactly the snapshot resolved at discovery
time — the executed trace is a function of the initial registry and the
number of chain steps alone, whatever registrations or deregistrations are
interleaved. -/
theorem invokeMiddleware_snapshot (reg : List MiddlewareEntry)
    (preference : List String) (acts : List ChainAct) :
    (runActs (startChain reg preference) acts).executed =
      ((resolveOrder preference reg).map fun e => e.identity).take
        (countSteps acts) := by
  rw [runActs_executed]
  simp [startChain]

/-- C9: middleware registered without a `group` option is bound with the
empty-string group tag, which ranks at the position of the empty-string
catch-all marker of any preference containing one — the same rank given to
unlisted groups. -/
theorem registerMiddleware_default_group (m : MiddlewareArtifact)
    (options : MiddlewareBindingOptions) (b : Binding)
    (preference : List String) (j : Nat) (g : String)
    (hg : options.group = none)
    (hok : registerMiddleware m options = Except.ok b)
    (hj : preference.indexOf? "" = some j)
    (hgu : preference.indexOf? g = none) :
    b.groupTag = some "" ∧ groupRank preference "" = j ∧
      groupRank preference g = j := by
  refine ⟨?_, by simp [groupRank, hj], by simp [groupRank, hgu, hj]⟩
  cases m with
  | providerClass c =>
    have hb : b = createMiddlewareBinding c options := by
      simpa [registerMiddleware] using hok.symm
    subst hb
    simp [createMiddlewareBinding, asMiddleware, hg]
  | middlewareFn f =>
    by_cases hk : jsTruthy options.key
    · have hb : b = asMiddleware options
          { key := options.key.getD "", extensionPoints := [], groupTag := none } := by
        simpa [registerMiddleware, hk] using hok.symm
      subst hb
      simp [asMiddleware, hg]
    · simp [registerMiddleware, hk] at hok

/-- C9 witness: a provider class registered with no options is tagged with
the empty group, placed at position 2 of `['cors', 'apiSpec', '']` like any
unlisted group. -/
theorem registerMiddleware_default_group_witness :
    ({ key := "middleware.Spy", extensionPoints := ["middleware.defaultChain"],
        groupTag := some "" } : Binding).groupTag = some "" ∧
      groupRank ["cors", "apiSpec", ""] "" = 2 ∧
      groupRank ["cors", "apiSpec", ""] "log" = 2 :=
  registerMiddleware_default_group (.providerClass "Spy")
    { key := none, group := none, extensionPointName := none }
    { key := "middleware.Spy", extensionPoints := ["middleware.defaultChain"],
      groupTag := some "" }
    ["cors", "apiSpec", ""] 2 "log" rfl rfl rfl rfl

/-- C10 counterexample: with an anonymous factory and an explicitly empty
class name, the class name is not omitted, yet `defineInterceptorProvider`
fails with the assertion error instead of returning a provider class. -/
theorem defineInterceptorProvider_empty_name_cex :
    ¬((some "" : Option String) = none ∧ replaceNonWord "" = "") ∧
    defineInterceptorProvider "" (some "") =
      Except.error "className is missing and it cannot be inferred." :=
  ⟨fun h => Option.noConfusion h.1, rfl⟩

/-- C10 (amended): `defineInterceptorProvider` fails with the assertion
error exactly when the supplied class name is JavaScript-falsy (missing or
empty) and the factory function's name with non-word characters replaced by
underscores is empty; otherwise it returns the generated provider class. -/
theorem defineInterceptorProvider_spec (factoryName : String)
    (className : Option String) :
    ((defineInterceptorProvider factoryName className).isOk =
      (jsTruthy className || !(replaceNonWord factoryName == ""))) ∧
    (defineInterceptorProvider factoryName className =
        Except.error "className is missing and it cannot be inferred." ↔
      jsTruthy className = false ∧ replaceNonWord factoryName = "") := by
  have hsome : ∀ s : String, jsTruthy (some s) = !(s == "") := fun s => rfl
  cases hT : jsTruthy className with
  | true =>
    simp [defineInterceptorProvider, buildName, hT, Except.isOk, Except.toBool]
  | false =>
    by_cases hN : replaceNonWord factoryName = ""
    · simp [defineInterceptorProvider, buildName, hT, hN, Except.isOk,
        Except.toBool]
    · simp [defineInterceptorProvider, buildName, hT, hN, hsome, Except.isOk,
        Except.toBool]

end LoopbackMiddleware
